import Mathlib

/-!
Verification model of `src/components/gfx/paint_task.rs` (the Servo paint
subsystem coordinator).  The coordinator's message loop (`PaintTask::start`),
tile dispatch (`PaintTask::paint`), buffer recycling
(`PaintTask::find_or_create_layer_buffer_for_tile`), layer-tree projection
(`PaintTask::initialize_layers`) and worker spawning
(`WorkerThreadProxy::spawn`) are embedded as executable Lean functions.

External collaborator types of the Rust code (Azure matrices `Matrix4`,
app units `Au`, pixel scalars `f32`, native surfaces) are represented as
follows: matrices are kept as an arbitrary type `M` with a composition
operation and an identity supplied through `Params`, app units are `Int`,
`f32` scalars that are only ever copied are `Rat`, and native surfaces keep
only the metadata the paint task manipulates.  Panics (`unwrap`, `expect`,
debug-mode integer underflow) are modelled with `Except`/explicit `panic`
outcomes.
-/

namespace ServoPaint

/-- A 2-D point, standing for `euclid::point::Point2D`. -/
structure Point2D (α : Type) where
  x : α
  y : α
deriving DecidableEq, Repr

/-- A 2-D size, standing for `euclid::size::Size2D`. -/
structure Size2D (α : Type) where
  width : α
  height : α
deriving DecidableEq, Repr

/-- A rectangle, standing for `euclid::rect::Rect`. -/
structure Rect (α : Type) where
  origin : Point2D α
  size : Size2D α
deriving DecidableEq, Repr

instance {α : Type} [Add α] : Add (Point2D α) :=
  ⟨fun a b => ⟨a.x + b.x, a.y + b.y⟩⟩

/-- `util::geometry::ZERO_POINT` with `Au` represented as `Int`. -/
def zeroPoint : Point2D Int := ⟨0, 0⟩

/-- `azure::azure_hl::Color`; channel values are `f32` in the source and are
only ever stored and copied here, so they are represented as `Rat`. -/
structure Color where
  r : Rat
  g : Rat
  b : Rat
  a : Rat
deriving DecidableEq, Repr

/-- `msg::compositor_msg::ScrollPolicy`. -/
inductive ScrollPolicy where
  | scrollable
  | fixedPosition
deriving DecidableEq, Repr

/-- `msg::compositor_msg::LayerKind`. -/
inductive LayerKind where
  | noTransform
  | hasTransform
deriving DecidableEq, Repr

/-- `msg::constellation_msg::PipelineExitType`. -/
inductive PipelineExitType where
  | complete
  | pipelineOnly
deriving DecidableEq, Repr

/-- The recognized configuration options of `util::opts` that
`paint_task.rs` reads. -/
structure Opts where
  gpu_painting : Bool
  paint_threads : Nat
  show_debug_parallel_paint : Bool
  paint_flashing : Bool
deriving DecidableEq, Repr

/-- Interpretation parameters for the external collaborator operations:
`M` is the representation of Azure `Matrix4`, `mmul` its `Matrix4::mul`,
`mident` its `Matrix4::identity`, and `toNearestPx` is
`util::geometry::Au::to_nearest_px` on app units represented as `Int`.
All theorems below are proved for every choice of these parameters. -/
structure Params (M : Type) where
  mmul : M → M → M
  mident : M
  toNearestPx : Int → Int
  opts : Opts

/-- `paint_task::PaintLayer`: the compositor-layer attachment of a stacking
context (stable layer id, background color, scroll policy). -/
structure PaintLayer where
  id : Nat
  background_color : Color
  scroll_policy : ScrollPolicy
deriving DecidableEq, Repr

mutual
/-- The navigable shape of `display_list::StackingContext` that
`paint_task.rs` consumes: its own transform and perspective, bounds and
overflow rectangles (`Au` coordinates as `Int`), the
`establishes_3d_context` flag, the optional `PaintLayer`, and its child
stacking contexts (`display_list.children`). -/
inductive StackingContext (M : Type) where
  | mk : M → M → Rect Int → Rect Int → Bool → Option PaintLayer →
         SCList M → StackingContext M

/-- A list of child stacking contexts (kept mutual with `StackingContext`
so that all recursions over the tree are structural). -/
inductive SCList (M : Type) where
  | nil : SCList M
  | cons : StackingContext M → SCList M → SCList M
end

/-- The `transform` field of a stacking context. -/
def StackingContext.transform {M : Type} : StackingContext M → M
  | .mk t _ _ _ _ _ _ => t

/-- The `perspective` field of a stacking context. -/
def StackingContext.perspective {M : Type} : StackingContext M → M
  | .mk _ p _ _ _ _ _ => p

/-- The `bounds` field of a stacking context. -/
def StackingContext.bounds {M : Type} : StackingContext M → Rect Int
  | .mk _ _ b _ _ _ _ => b

/-- The `overflow` field of a stacking context. -/
def StackingContext.overflow {M : Type} : StackingContext M → Rect Int
  | .mk _ _ _ o _ _ _ => o

/-- The `establishes_3d_context` field of a stacking context. -/
def StackingContext.establishes3dContext {M : Type} : StackingContext M → Bool
  | .mk _ _ _ _ e _ _ => e

/-- The optional `PaintLayer` of a stacking context. -/
def StackingContext.layer {M : Type} : StackingContext M → Option PaintLayer
  | .mk _ _ _ _ _ l _ => l

/-- The child stacking contexts of a stacking context. -/
def StackingContext.children {M : Type} : StackingContext M → SCList M
  | .mk _ _ _ _ _ _ k => k

/-- Concatenation of the images of a function over a child list; used to
state the shape of the layer-tree builder. -/
def scFlatMap {M β : Type} (f : StackingContext M → List β) : SCList M → List β
  | .nil => []
  | .cons k ks => f k ++ scFlatMap f ks

mutual
/-- Modelled from the spec: `display_list::find_stacking_context_with_layer_id`
is not part of the provided sources; spec section 4.6 describes it as a
depth-first pre-order search returning the first node whose
`PaintLayer.id` equals the requested id. -/
def findStackingContextWithLayerId {M : Type} (sc : StackingContext M)
    (layerId : Nat) : Option (StackingContext M) :=
  match sc with
  | .mk t p b o e3 layer kids =>
    match layer with
    | some paintLayer =>
      if paintLayer.id = layerId then some (.mk t p b o e3 layer kids)
      else findInKids kids layerId
    | none => findInKids kids layerId

/-- Modelled from the spec: pre-order search over a child list, left to
right, for `findStackingContextWithLayerId`. -/
def findInKids {M : Type} (ks : SCList M) (layerId : Nat) :
    Option (StackingContext M) :=
  match ks with
  | .nil => none
  | .cons k rest =>
    match findStackingContextWithLayerId k layerId with
    | some found => some found
    | none => findInKids rest layerId
end

/-- `msg::compositor_msg::LayerProperties`: the flattened compositor view
of one layer emitted by `PaintTask::initialize_layers`.  The device-pixel
rect holds the `to_nearest_px` results cast to `f32` (represented `Rat`). -/
structure LayerProperties (M : Type) where
  id : Nat
  parent_id : Option Nat
  rect : Rect Rat
  background_color : Color
  scroll_policy : ScrollPolicy
  transform : M
  perspective : M
  establishes_3d_context : Bool

mutual
/-- The local function `build` inside `PaintTask::initialize_layers`
(paint_task.rs lines 464-523), translated with the `&mut Vec` of emitted
`LayerProperties` passed as the accumulator `acc`. -/
def build {M : Type} (P : Params M) (acc : List (LayerProperties M))
    (sc : StackingContext M) (pagePosition : Point2D Int)
    (transform perspective : M) (parentId : Option Nat) :
    List (LayerProperties M) :=
  match sc with
  | .mk scTransform scPerspective bounds overflow e3 layer kids =>
    let transform2 := P.mmul transform scTransform
    let perspective2 := P.mmul perspective scPerspective
    match layer with
    | some paintLayer =>
      -- Layers start at the top left of their overflow rect.
      let overflowRelativePagePosition :=
        pagePosition + bounds.origin + overflow.origin
      let layerPosition : Rect Rat :=
        ⟨⟨(P.toNearestPx overflowRelativePagePosition.x : Int),
          (P.toNearestPx overflowRelativePagePosition.y : Int)⟩,
         ⟨(P.toNearestPx overflow.size.width : Int),
          (P.toNearestPx overflow.size.height : Int)⟩⟩
      let acc2 := acc ++
        [{ id := paintLayer.id
           parent_id := parentId
           rect := layerPosition
           background_color := paintLayer.background_color
           scroll_policy := paintLayer.scroll_policy
           transform := transform2
           perspective := perspective2
           establishes_3d_context := e3 }]
      -- When there is a new layer, the transforms and origin are handled
      -- by the compositor.
      buildKids P acc2 kids ⟨0, 0⟩ P.mident P.mident (some paintLayer.id)
    | none =>
      buildKids P acc kids (bounds.origin + pagePosition)
        transform2 perspective2 parentId

/-- Recursion of `build` over `display_list.children` in document order. -/
def buildKids {M : Type} (P : Params M) (acc : List (LayerProperties M))
    (ks : SCList M) (pagePosition : Point2D Int) (transform perspective : M)
    (parentId : Option Nat) : List (LayerProperties M) :=
  match ks with
  | .nil => acc
  | .cons k rest =>
    buildKids P (build P acc k pagePosition transform perspective parentId)
      rest pagePosition transform perspective parentId
end

/-- `layers::layers::BufferRequest`: one tile to paint.  `page_rect` is an
`f32` rectangle (represented `Rat`), `screen_rect` a device-pixel rectangle
(`usize` as `Nat`), `content_age` a monotonic counter. -/
structure BufferRequest where
  page_rect : Rect Rat
  screen_rect : Rect Nat
  content_age : Nat
deriving DecidableEq, Repr

/-- The metadata of `layers::platform::surface::NativeSurface` that
`paint_task.rs` manipulates: its allocation size and the "won't leak" mark.
Pixel contents live in the external graphics library and are not modelled. -/
structure NativeSurface where
  width : Nat
  height : Nat
  wontLeak : Bool
deriving DecidableEq, Repr

/-- `layers::layers::LayerBuffer`: a filled raster tile as the paint task
sees it. -/
structure LayerBuffer where
  native_surface : NativeSurface
  rect : Rect Rat
  screen_pos : Rect Nat
  resolution : Rat
  stride : Nat
  painted_with_cpu : Bool
  content_age : Nat
deriving DecidableEq, Repr

/-- Byte size of a buffer: 32-bpp BGRA, so four bytes per pixel of its
screen-space size. -/
def LayerBuffer.byteSize (b : LayerBuffer) : Nat :=
  4 * b.screen_pos.size.width * b.screen_pos.size.height

/-- Modelled from the spec: `buffer_map::BufferMap` is not part of the
provided sources; spec section 4.3 describes a size-keyed cache of free
buffers with a byte budget and least-recently-inserted eviction.  Each held
buffer is tagged with an insertion age. -/
structure BufferMap where
  entries : List (Nat × LayerBuffer)
  counter : Nat
  budget : Nat
deriving DecidableEq, Repr

/-- `BufferMap::new(budget)`. -/
def BufferMap.new (budget : Nat) : BufferMap := ⟨[], 0, budget⟩

/-- Total bytes held by the pool (`BufferMap::mem`). -/
def BufferMap.memBytes (bm : BufferMap) : Nat :=
  (bm.entries.map (fun e => e.2.byteSize)).sum

/-- Modelled from the spec: the entry of exactly matching screen-space size
with the greatest insertion age (the most recently inserted one). -/
def newestMatching (sz : Size2D Nat) :
    List (Nat × LayerBuffer) → Option (Nat × LayerBuffer)
  | [] => none
  | e :: es =>
    let rest := newestMatching sz es
    if e.2.screen_pos.size = sz then
      match rest with
      | none => some e
      | some r => if r.1 ≤ e.1 then some e else some r
    else rest

/-- Remove the (first) entry with the given insertion age. -/
def removeAge (age : Nat) : List (Nat × LayerBuffer) → List (Nat × LayerBuffer)
  | [] => []
  | e :: es => if e.1 = age then es else e :: removeAge age es

/-- Modelled from the spec: `BufferMap::find` removes and returns the most
recently inserted buffer of exactly the requested screen-space size. -/
def BufferMap.find (bm : BufferMap) (sz : Size2D Nat) :
    Option (LayerBuffer × BufferMap) :=
  match newestMatching sz bm.entries with
  | none => none
  | some e => some (e.2, { bm with entries := removeAge e.1 bm.entries })

/-- The entry with the least insertion age (the least recently inserted). -/
def oldestEntry : List (Nat × LayerBuffer) → Option (Nat × LayerBuffer)
  | [] => none
  | e :: es =>
    match oldestEntry es with
    | none => some e
    | some r => if e.1 ≤ r.1 then some e else some r

/-- Evict least-recently-inserted entries until the byte total is within
budget (fuelled by the entry count, which bounds the evictions needed). -/
def evictUntilWithinBudget (budget : Nat) :
    Nat → List (Nat × LayerBuffer) → List (Nat × LayerBuffer)
  | 0, entries => entries
  | fuel + 1, entries =>
    if (entries.map (fun e => e.2.byteSize)).sum ≤ budget then entries
    else
      match oldestEntry entries with
      | none => entries
      | some e => evictUntilWithinBudget budget fuel (removeAge e.1 entries)

/-- Modelled from the spec: `BufferMap::insert` pushes the buffer and then
evicts least-recently-inserted buffers while over the byte budget. -/
def BufferMap.insert (bm : BufferMap) (b : LayerBuffer) : BufferMap :=
  let entries1 := (bm.counter, b) :: bm.entries
  { entries := evictUntilWithinBudget bm.budget entries1.length entries1
    counter := bm.counter + 1
    budget := bm.budget }

/-! ### Round-robin worker dispatch

`PaintTask::paint` sends tile `i` to worker `i % worker_threads.len()` and
reads the `i`-th reply from the same worker.  Worker channels are FIFO, so
the owner-side view of a worker is a queue; `pushQueue`/`dealFrom` model the
dispatch loop, a per-worker `List.map` models the worker's FIFO processing,
and `collectFrom` models the reply-collection loop. -/

/-- Append an element at the back of queue `w`. -/
def pushQueue {α : Type} (qs : Nat → List α) (w : Nat) (x : α) :
    Nat → List α :=
  fun w2 => if w2 = w then qs w2 ++ [x] else qs w2

/-- The dispatch loop of `PaintTask::paint`: element number `i` (counting
from horizon `start`) is pushed onto queue `(start + position) % W`. -/
def dealFrom {α : Type} (W : Nat) (qs : Nat → List α) :
    Nat → List α → Nat → List α
  | _, [] => qs
  | i, x :: xs => dealFrom W (pushQueue qs (i % W) x) (i + 1) xs

/-- The collection loop of `PaintTask::paint`: the `i`-th reply is read
(FIFO) from worker `i % W`; `n` counts the outstanding replies.  An empty
queue would mean a blocked `recv` and never happens in the modelled flows. -/
def collectFrom {β : Type} (W : Nat) : Nat → Nat → (Nat → List β) → List β
  | 0, _, _ => []
  | n + 1, i, qs =>
    match qs (i % W) with
    | [] => []
    | b :: rest =>
      b :: collectFrom W n (i + 1) (fun w => if w = i % W then rest else qs w)

/-- The whole dispatch/collect round trip for one batch `xs`, where worker
`w` turns each received payload `x` into `g w x`. -/
def roundRobinRun {α β : Type} (W : Nat) (g : Nat → α → β) (xs : List α) :
    List β :=
  collectFrom W xs.length 0
    (fun w => (dealFrom W (fun _ => []) 0 xs w).map (g w))

/-- `f` applied to each element together with its index, indices starting
at `i`; the reference shape for a round-robin batch result. -/
def mapIdxFrom {α β : Type} (f : Nat → α → β) : Nat → List α → List β
  | _, [] => []
  | i, x :: xs => f i x :: mapIdxFrom f (i + 1) xs

/-! ### The per-tile buffer and the worker rasterizer -/

/-- `PaintTask::find_or_create_layer_buffer_for_tile` (lines 364-402).
In GPU mode the pool is bypassed and no buffer is supplied.  In CPU mode a
pooled buffer of exactly the tile's screen size is reused (its metadata
refreshed), otherwise a fresh native surface is created — which requires
the native graphics context (`native_graphics_context!` would panic,
modelled as `Except.error`). -/
def findOrCreateLayerBufferForTile {M : Type} (P : Params M)
    (hasCtx : Bool) (bm : BufferMap) (tile : BufferRequest) (scale : Rat) :
    Except Unit (BufferMap × Option LayerBuffer) :=
  let width := tile.screen_rect.size.width
  if P.opts.gpu_painting then .ok (bm, none)
  else
    match bm.find tile.screen_rect.size with
    | some (buffer, bm1) =>
      .ok (bm1, some
        { buffer with
          rect := tile.page_rect
          screen_pos := tile.screen_rect
          resolution := scale
          native_surface := { buffer.native_surface with wontLeak := true }
          painted_with_cpu := true
          content_age := tile.content_age })
    | none =>
      if hasCtx then
        .ok (bm, some
          { native_surface :=
              { width := width
                height := tile.screen_rect.size.height
                wontLeak := true }
            rect := tile.page_rect
            screen_pos := tile.screen_rect
            resolution := scale
            stride := width * 4
            painted_with_cpu := true
            content_age := tile.content_age })
      else .error ()

/-- One worker's handling of a `PaintTile` message
(`WorkerThread::optimize_and_paint_tile` followed by
`WorkerThread::create_layer_buffer_for_painted_tile`).  Drawing itself is
external; what is modelled is every access the worker makes to the buffer
metadata and every panic path: the GPU draw target and the CPU upload both
need the worker's native graphics context, and the CPU path unwraps the
supplied buffer.  The `threadId` argument is the tint index the coordinator
passed (used only for debug tinting, so it does not show up in the result). -/
def workerPaintTile {M : Type} (P : Params M) (hasCtx : Bool)
    (_threadId : Nat) (tile : BufferRequest)
    (layerBuffer : Option LayerBuffer) (scale : Rat) (_kind : LayerKind) :
    Except Unit LayerBuffer :=
  if P.opts.gpu_painting then
    if hasCtx then
      .ok { native_surface :=
              { width := tile.screen_rect.size.width
                height := tile.screen_rect.size.height
                wontLeak := true }
            rect := tile.page_rect
            screen_pos := tile.screen_rect
            resolution := scale
            stride := tile.screen_rect.size.width * 4
            painted_with_cpu := false
            content_age := tile.content_age }
    else .error ()
  else
    match layerBuffer with
    | some b => if hasCtx then .ok b else .error ()
    | none => .error ()

/-- `WorkerThreadProxy::spawn` worker count (lines 537-541): one worker
under GPU painting, otherwise the configured `paint_threads`. -/
def threadCount (opts : Opts) : Nat :=
  if opts.gpu_painting then 1 else opts.paint_threads

/-! ### The paint coordinator -/

/-- The state owned by the coordinator loop: the fields of `PaintTask`
that `start` reads or writes, plus the two locals of `start`
(`waiting_for_compositor_buffers_to_exit` and the presence of
`exit_response_channel`).  The native graphics context is kept only as its
presence, and the canvas map as the list of recorded layer ids (the sinks
are opaque channels). -/
structure PaintState (M : Type) where
  root_stacking_context : Option (StackingContext M)
  paint_permission : Bool
  current_epoch : Option Nat
  buffer_map : BufferMap
  used_buffer_count : Nat
  canvas_map : List Nat
  has_graphics_context : Bool
  worker_count : Nat
  waiting_for_exit : Bool
  exit_response_channel : Bool

/-- `paint_task::PaintRequest`. -/
structure PaintRequest where
  buffer_requests : List BufferRequest
  scale : Rat
  layer_id : Nat
  epoch : Nat
  layer_kind : LayerKind
deriving DecidableEq, Repr

/-- `paint_task::Msg`, the coordinator's inbound message set.  Channel
payloads (canvas sinks, reports channel, ack channel) are kept as their
observable part. -/
inductive CoordMsg (M : Type) where
  | paintInit (epoch : Nat) (sc : StackingContext M)
  | canvasLayer (layerId : Nat)
  | paint (requests : List PaintRequest) (frameTreeId : Nat)
  | unusedBuffer (buffers : List LayerBuffer)
  | paintPermissionGranted
  | paintPermissionRevoked
  | collectReports
  | exitMsg (hasChannel : Bool) (exitType : PipelineExitType)

/-- The outbound calls the coordinator makes, in order: the compositor
interface (`assign_painted_buffers`, `initialize_layers_for_pipeline`,
`notify_paint_task_exiting`), the constellation (`PainterReady`), the ack
channel (`exitAck`), and the memory profiler. -/
inductive CompositorEvent (M : Type) where
  | assignPaintedBuffers (epoch : Nat)
      (replies : List (Nat × List LayerBuffer)) (frameTreeId : Nat)
  | layersPublished (properties : List (LayerProperties M)) (epoch : Nat)
  | notifyPaintTaskExiting
  | painterReady
  | exitAck
  | unregisterReporter
  | memoryReport (bytes : Nat)

/-- The outcome of processing one message: a Rust panic, continuing the
loop, or breaking out of it. -/
inductive StepResult (M : Type) where
  | panic
  | cont (s : PaintState M) (out : List (CompositorEvent M))
  | halt (s : PaintState M) (out : List (CompositorEvent M))

/-- Whether the given layer id resolves to a stacking context of the
current scene. -/
def resolvesLayer {M : Type} (s : PaintState M) (layerId : Nat) : Bool :=
  match s.root_stacking_context with
  | none => false
  | some root => (findStackingContextWithLayerId root layerId).isSome

/-- The buffer-allocation loop inside `PaintTask::paint`: one
`find_or_create_layer_buffer_for_tile` call per tile, in order, threading
the pool. -/
def allocBuffers {M : Type} (P : Params M) (hasCtx : Bool) (bm : BufferMap)
    (scale : Rat) :
    List BufferRequest →
    Except Unit (BufferMap × List (BufferRequest × Option LayerBuffer))
  | [] => .ok (bm, [])
  | tile :: rest =>
    match findOrCreateLayerBufferForTile P hasCtx bm tile scale with
    | .error e => .error e
    | .ok (bm1, buf) =>
      match allocBuffers P hasCtx bm1 scale rest with
      | .error e => .error e
      | .ok (bm2, pbs) => .ok (bm2, (tile, buf) :: pbs)

/-- Collect a list of `Except` results, failing at the first error; a
worker panic closes its channel and the coordinator's `recv().unwrap()`
panics with it. -/
def collectOks {β : Type} : List (Except Unit β) → Except Unit (List β)
  | [] => .ok []
  | .error e :: _ => .error e
  | .ok b :: rest =>
    match collectOks rest with
    | .error e => .error e
    | .ok bs => .ok (b :: bs)

/-- `PaintTask::paint` (lines 405-447): resolve the target stacking
context (bail out if absent), allocate a buffer per tile, dispatch the
tiles round-robin, collect the painted buffers in the same order, and push
one `(layer_id, buffer set)` reply. -/
def paintOne {M : Type} (P : Params M) (s : PaintState M)
    (replies : List (Nat × List LayerBuffer)) (tiles : List BufferRequest)
    (scale : Rat) (layerId : Nat) (kind : LayerKind) :
    Except Unit (PaintState M × List (Nat × List LayerBuffer)) :=
  match s.root_stacking_context with
  | none => .ok (s, replies)
  | some root =>
    match findStackingContextWithLayerId root layerId with
    | none => .ok (s, replies)
    | some _sc =>
      match allocBuffers P s.has_graphics_context s.buffer_map scale tiles with
      | .error e => .error e
      | .ok (bm1, payloads) =>
        let results := roundRobinRun s.worker_count
          (fun tid pb =>
            workerPaintTile P s.has_graphics_context tid pb.1 pb.2 scale kind)
          payloads
        match collectOks results with
        | .error e => .error e
        | .ok buffers =>
          .ok ({ s with buffer_map := bm1 }, replies ++ [(layerId, buffers)])

/-- The request loop of the `Msg::Paint` arm (lines 276-283): requests
whose epoch equals the current epoch are painted, the others are dropped
with a debug log. -/
def processRequests {M : Type} (P : Params M) (s : PaintState M)
    (replies : List (Nat × List LayerBuffer)) :
    List PaintRequest →
    Except Unit (PaintState M × List (Nat × List LayerBuffer))
  | [] => .ok (s, replies)
  | req :: rest =>
    if s.current_epoch = some req.epoch then
      match paintOne P s replies req.buffer_requests req.scale req.layer_id
          req.layer_kind with
      | .error e => .error e
      | .ok (s1, replies1) => processRequests P s1 replies1 rest
    else processRequests P s replies rest

/-- `PaintTask::initialize_layers` (lines 449-462): nothing happens
without a scene; with one, the flattened layer properties are published
under `current_epoch.unwrap()` (`none` means a panic). -/
def publishLayers {M : Type} (P : Params M) (s : PaintState M) :
    Option (List (CompositorEvent M)) :=
  match s.root_stacking_context with
  | none => some []
  | some root =>
    match s.current_epoch with
    | none => none
    | some e =>
      some [.layersPublished
        (build P [] root zeroPoint P.mident P.mident none) e]

/-- The state change of a non-panicking `Msg::UnusedBuffer` (lines
296-302): decrement the loan counter, insert the buffers into the pool in
reversed iteration order. -/
def afterUnusedBuffer {M : Type} (s : PaintState M)
    (buffers : List LayerBuffer) : PaintState M :=
  { s with
    used_buffer_count := s.used_buffer_count - buffers.length
    buffer_map :=
      buffers.reverse.foldl (fun bm b => bm.insert b) s.buffer_map }

/-- One iteration of the coordinator loop `PaintTask::start`
(lines 237-359), faithful to the order of checks and effects of each
message arm. -/
def stepMsg {M : Type} (P : Params M) (s : PaintState M) :
    CoordMsg M → StepResult M
  | .paintInit e sc =>
    let s1 := { s with current_epoch := some e
                       root_stacking_context := some sc }
    if !s1.paint_permission then .cont s1 [.painterReady]
    else if s1.waiting_for_exit then .cont s1 []
    else
      match publishLayers P s1 with
      | none => .panic
      | some evs => .cont s1 evs
  | .canvasLayer layerId =>
    .cont { s with canvas_map :=
              layerId :: s.canvas_map.filter (fun l => l ≠ layerId) } []
  | .paint requests frameTreeId =>
    if !s.paint_permission then .cont s [.painterReady]
    else if s.waiting_for_exit then .cont s []
    else
      match processRequests P s [] requests with
      | .error _ => .panic
      | .ok (s1, replies) =>
        let shipped := (replies.map (fun r => r.2.length)).sum
        let s2 := { s1 with used_buffer_count :=
                      s1.used_buffer_count + shipped }
        match s2.current_epoch with
        | none => .panic
        | some e => .cont s2 [.assignPaintedBuffers e replies frameTreeId]
  | .unusedBuffer buffers =>
    -- usize subtraction: underflow is a (debug) panic, and inserting into
    -- the pool needs the native graphics context.
    if s.used_buffer_count < buffers.length then .panic
    else if buffers.length ≠ 0 ∧ s.has_graphics_context = false then .panic
    else
      let s1 := afterUnusedBuffer s buffers
      if s1.waiting_for_exit ∧ s1.used_buffer_count = 0 then
        .halt s1 (if s1.exit_response_channel then [.exitAck] else [])
      else .cont s1 []
  | .paintPermissionGranted =>
    let s1 := { s with paint_permission := true }
    if s1.root_stacking_context.isSome then
      match publishLayers P s1 with
      | none => .panic
      | some evs => .cont s1 evs
    else .cont s1 []
  | .paintPermissionRevoked =>
    .cont { s with paint_permission := false } []
  | .collectReports =>
    .cont s [.memoryReport s.buffer_map.memBytes]
  | .exitMsg hasChannel exitType =>
    let out0 : List (CompositorEvent M) :=
      [.unregisterReporter, .notifyPaintTaskExiting]
    let shouldWait :=
      match exitType with
      | .complete => false
      | .pipelineOnly => s.used_buffer_count ≠ 0
    if shouldWait then
      .cont { s with waiting_for_exit := true
                     exit_response_channel := hasChannel } out0
    else
      .halt s (out0 ++ if hasChannel then [.exitAck] else [])

/-- The outcome of running the loop over a whole message list. -/
inductive RunOutcome (M : Type) where
  | panicked
  | running (s : PaintState M)
  | halted (s : PaintState M)

/-- The number of buffers a message hands back to the coordinator: the
batch size of an `UnusedBuffer` message, zero for anything else. -/
def returnedOfMsg {M : Type} : CoordMsg M → Nat
  | .unusedBuffer buffers => buffers.length
  | _ => 0

/-- Run the coordinator loop over a message list, collecting the outbound
events and the total number of buffers returned by the processed
`UnusedBuffer` messages. -/
def runTrace {M : Type} (P : Params M) (s : PaintState M) :
    List (CoordMsg M) → RunOutcome M × List (CompositorEvent M) × Nat
  | [] => (.running s, [], 0)
  | m :: ms =>
    match stepMsg P s m with
    | .panic => (.panicked, [], 0)
    | .halt s1 out => (.halted s1, out, returnedOfMsg m)
    | .cont s1 out =>
      let r := runTrace P s1 ms
      (r.1, out ++ r.2.1, returnedOfMsg m + r.2.2)

/-- Buffers shipped to the compositor by one outbound event. -/
def eventShipped {M : Type} : CompositorEvent M → Nat
  | .assignPaintedBuffers _ replies _ => (replies.map (fun r => r.2.length)).sum
  | _ => 0

/-- Buffers shipped to the compositor across a list of outbound events. -/
def shippedOfEvents {M : Type} (evts : List (CompositorEvent M)) : Nat :=
  (evts.map eventShipped).sum

/-- The events of a step result (none on a panic). -/
def StepResult.events {M : Type} : StepResult M → List (CompositorEvent M)
  | .panic => []
  | .cont _ out => out
  | .halt _ out => out

/-- The loan-conservation relation between the state before a message,
the message, and the step outcome: outside panics, the new loan counter
plus the buffers returned by the message equals the old counter plus the
buffers shipped by the outbound events. -/
def loanBalanced {M : Type} (s : PaintState M) (m : CoordMsg M) :
    StepResult M → Prop
  | .panic => True
  | .cont s1 out =>
    s1.used_buffer_count + returnedOfMsg m =
      s.used_buffer_count + shippedOfEvents out
  | .halt s1 out =>
    s1.used_buffer_count + returnedOfMsg m =
      s.used_buffer_count + shippedOfEvents out

/-- The coordinator state as `PaintTask::create` builds it (lines
194-211): no scene, no permission, no epoch, a 10 MB pool budget, zero
loaned buffers, workers per `WorkerThreadProxy::spawn`, and the loop
locals at their initial values. -/
def initState {M : Type} (P : Params M) (hasCtx : Bool) : PaintState M :=
  { root_stacking_context := none
    paint_permission := false
    current_epoch := none
    buffer_map := BufferMap.new 10000000
    used_buffer_count := 0
    canvas_map := []
    has_graphics_context := hasCtx
    worker_count := threadCount P.opts
    waiting_for_exit := false
    exit_response_channel := false }

/-- The fixed debug tint palette `THREAD_TINT_COLORS`. -/
def threadTintColors : List Color :=
  [⟨6/255, 153/255, 198/255, 7/10⟩,
   ⟨255/255, 212/255, 83/255, 7/10⟩,
   ⟨116/255, 29/255, 109/255, 7/10⟩,
   ⟨204/255, 158/255, 199/255, 7/10⟩,
   ⟨242/255, 46/255, 121/255, 7/10⟩,
   ⟨116/255, 203/255, 196/255, 7/10⟩,
   ⟨255/255, 249/255, 201/255, 7/10⟩,
   ⟨137/255, 196/255, 78/255, 7/10⟩]

/-! ### Concrete fixtures

Closed instances (with the matrix type instantiated to `Unit`) used by the
counterexamples and the witnesses of the hypothesis-bearing theorems. -/

/-- CPU-mode parameters over the trivial matrix representation. -/
def unitParams : Params Unit :=
  ⟨fun _ _ => (), (), fun x => x, ⟨false, 2, false, false⟩⟩

/-- GPU-mode parameters with a deliberately large `paint_threads`. -/
def gpuParams : Params Unit :=
  ⟨fun _ _ => (), (), fun x => x, ⟨true, 8, false, false⟩⟩

/-- An opaque background color. -/
def exColor : Color := ⟨0, 0, 0, 1⟩

/-- A single-node scene whose root carries `PaintLayer` id 7. -/
def exScene : StackingContext Unit :=
  .mk () () ⟨⟨0, 0⟩, ⟨200, 200⟩⟩ ⟨⟨0, 0⟩, ⟨200, 200⟩⟩ false
    (some ⟨7, exColor, .scrollable⟩) .nil

/-- A coordinator state with paint permission, current epoch 1, the
`exScene` scene, a graphics context and two workers. -/
def exState : PaintState Unit :=
  { root_stacking_context := some exScene
    paint_permission := true
    current_epoch := some 1
    buffer_map := BufferMap.new 10000000
    used_buffer_count := 0
    canvas_map := []
    has_graphics_context := true
    worker_count := 2
    waiting_for_exit := false
    exit_response_channel := false }

/-- One 100-by-100 tile. -/
def exTile : BufferRequest :=
  ⟨⟨⟨0, 0⟩, ⟨100, 100⟩⟩, ⟨⟨0, 0⟩, ⟨100, 100⟩⟩, 0⟩

/-- A one-tile request with stale epoch 0 for layer 7. -/
def exReqStale : PaintRequest := ⟨[exTile], 1, 7, 0, .noTransform⟩

/-- A one-tile request with matching epoch 1 whose layer id 99 resolves to
no stacking context of `exScene`. -/
def exReqMissing : PaintRequest := ⟨[exTile], 1, 99, 1, .noTransform⟩

/-- A two-tile request with matching epoch 1 for layer 7. -/
def exReqGood : PaintRequest := ⟨[exTile, exTile], 1, 7, 1, .noTransform⟩

/-- A concrete loaned buffer. -/
def exBuf : LayerBuffer :=
  ⟨⟨100, 100, true⟩, ⟨⟨0, 0⟩, ⟨100, 100⟩⟩, ⟨⟨0, 0⟩, ⟨100, 100⟩⟩, 1, 400,
   true, 0⟩

/-- A coordinator state in drain mode with two outstanding loans and a
stored ack channel. -/
def exDrainState : PaintState Unit :=
  { exState with
    used_buffer_count := 2
    waiting_for_exit := true
    exit_response_channel := true }

/-- A child stacking context without a `PaintLayer`. -/
def exChild : StackingContext Unit :=
  .mk () () ⟨⟨10, 20⟩, ⟨30, 40⟩⟩ ⟨⟨1, 2⟩, ⟨50, 60⟩⟩ false none .nil

/-- A root stacking context with `PaintLayer` id 3 and one layerless
child. -/
def exLayeredScene : StackingContext Unit :=
  .mk () () ⟨⟨5, 6⟩, ⟨70, 80⟩⟩ ⟨⟨7, 8⟩, ⟨90, 100⟩⟩ true
    (some ⟨3, exColor, .fixedPosition⟩) (.cons exChild .nil)

/-! ## Round-robin dispatch lemmas -/

theorem dealFrom_eq_append {α : Type} (W : Nat) (xs : List α) :
    ∀ (i : Nat) (qs : Nat → List α) (w : Nat),
      dealFrom W qs i xs w = qs w ++ dealFrom W (fun _ => []) i xs w := by
  induction xs with
  | nil => intro i qs w; simp [dealFrom]
  | cons x xs ih =>
    intro i qs w
    simp only [dealFrom]
    rw [ih (i + 1) (pushQueue qs (i % W) x) w,
        ih (i + 1) (pushQueue (fun _ => []) (i % W) x) w]
    by_cases h : w = i % W
    · simp [pushQueue, h]
    · simp [pushQueue, h]

theorem collectFrom_dealFrom {α β : Type} (W : Nat) (g : Nat → α → β)
    (xs : List α) :
    ∀ i : Nat,
      collectFrom W xs.length i
        (fun w => (dealFrom W (fun _ => []) i xs w).map (g w)) =
      mapIdxFrom (fun j x => g (j % W) x) i xs := by
  induction xs with
  | nil => intro i; simp [collectFrom, mapIdxFrom, dealFrom]
  | cons x xs ih =>
    intro i
    have hfun : (fun w => (dealFrom W (fun _ => []) i (x :: xs) w).map (g w)) =
        (fun w => if w = i % W then
            g w x :: (dealFrom W (fun _ => []) (i + 1) xs w).map (g w)
          else (dealFrom W (fun _ => []) (i + 1) xs w).map (g w)) := by
      funext w
      show (dealFrom W (pushQueue (fun _ => []) (i % W) x) (i + 1) xs w).map
          (g w) = _
      rw [dealFrom_eq_append]
      by_cases h : w = i % W
      · simp [pushQueue, h]
      · simp [pushQueue, h]
    rw [List.length_cons, hfun]
    simp only [collectFrom, eq_self_iff_true, if_true]
    have hrest : (fun w => if w = i % W then
          (dealFrom W (fun _ => []) (i + 1) xs (i % W)).map (g (i % W))
        else if w = i % W then
          g w x :: (dealFrom W (fun _ => []) (i + 1) xs w).map (g w)
        else (dealFrom W (fun _ => []) (i + 1) xs w).map (g w)) =
        (fun w => (dealFrom W (fun _ => []) (i + 1) xs w).map (g w)) := by
      funext w
      by_cases h : w = i % W
      · subst h; simp
      · simp [h]
    rw [hrest, ih (i + 1)]
    simp [mapIdxFrom]

theorem mapIdxFrom_length {α β : Type} (f : Nat → α → β) :
    ∀ (i : Nat) (xs : List α), (mapIdxFrom f i xs).length = xs.length := by
  intro i xs
  induction xs generalizing i with
  | nil => simp [mapIdxFrom]
  | cons x xs ih => simp [mapIdxFrom, ih]

theorem getElem?_mapIdxFrom {α β : Type} (f : Nat → α → β) :
    ∀ (xs : List α) (i k : Nat),
      (mapIdxFrom f i xs)[k]? = xs[k]?.map (f (i + k)) := by
  intro xs
  induction xs with
  | nil => intro i k; simp [mapIdxFrom]
  | cons x xs ih =>
    intro i k
    cases k with
    | zero => simp [mapIdxFrom]
    | succ k =>
      simp only [mapIdxFrom, List.getElem?_cons_succ]
      rw [ih (i + 1) k]
      have : i + 1 + k = i + (k + 1) := by omega
      rw [this]

theorem mem_mapIdxFrom {α β : Type} (f : Nat → α → β) :
    ∀ (xs : List α) (i : Nat) (y : β), y ∈ mapIdxFrom f i xs →
      ∃ j x, x ∈ xs ∧ y = f j x := by
  intro xs
  induction xs with
  | nil => intro i y h; simp [mapIdxFrom] at h
  | cons x xs ih =>
    intro i y h
    simp only [mapIdxFrom, List.mem_cons] at h
    rcases h with h | h
    · exact ⟨i, x, List.mem_cons_self x xs, h⟩
    · rcases ih (i + 1) y h with ⟨j, x2, hx2, hy⟩
      exact ⟨j, x2, List.mem_cons_of_mem x hx2, hy⟩

theorem roundRobinRun_eq {α β : Type} (W : Nat) (g : Nat → α → β)
    (xs : List α) :
    roundRobinRun W g xs = mapIdxFrom (fun j x => g (j % W) x) 0 xs :=
  collectFrom_dealFrom W g xs 0

/-- C4: In a paint batch of `n` tiles dispatched over `W` workers
(`roundRobinRun`, the dispatch/collect round trip of `PaintTask::paint`),
tile `i` is sent to worker `i mod W` and the `i`-th reply is read from
worker `i mod W`, so the output buffer at position `i` is worker
`i mod W`'s result on input tile `i`, for every `i < n`. -/
theorem c4_deterministic_tile_mapping {α β : Type} (W : Nat)
    (g : Nat → α → β) (tiles : List α) (i : Nat) (hW : 0 < W)
    (hi : i < tiles.length) :
    (roundRobinRun W g tiles)[i]? = tiles[i]?.map (fun t => g (i % W) t) := by
  rw [roundRobinRun_eq, getElem?_mapIdxFrom]
  simp

/-- Witness for C4 at `W = 2`, three tiles: position 2 of the output is
worker `2 % 2 = 0` applied to tile 2. -/
theorem c4_deterministic_tile_mapping_witness :
    0 < 2 ∧ 2 < ([10, 20, 30] : List Nat).length ∧
    (roundRobinRun 2 (fun w t => w * 1000 + t) [10, 20, 30])[2]? =
      ([10, 20, 30] : List Nat)[2]?.map (fun t => 2 % 2 * 1000 + t) :=
  ⟨by decide, by decide,
   c4_deterministic_tile_mapping 2 (fun w t => w * 1000 + t) [10, 20, 30] 2
     (by decide) (by decide)⟩

/-! ## Layer-tree builder lemmas -/

mutual
theorem build_append {M : Type} (P : Params M) (sc : StackingContext M) :
    ∀ (acc : List (LayerProperties M)) (pagePosition : Point2D Int)
      (transform perspective : M) (parentId : Option Nat),
      build P acc sc pagePosition transform perspective parentId =
        acc ++ build P [] sc pagePosition transform perspective parentId := by
  cases sc with
  | mk t0 p0 b o e3 layer kids =>
    intro acc pp t p pid
    cases layer with
    | some pl =>
      simp only [build]
      rw [buildKids_append P kids, buildKids_append P kids ([] ++ _)]
      simp
    | none =>
      simp only [build]
      exact buildKids_append P kids acc _ _ _ _

theorem buildKids_append {M : Type} (P : Params M) (ks : SCList M) :
    ∀ (acc : List (LayerProperties M)) (pagePosition : Point2D Int)
      (transform perspective : M) (parentId : Option Nat),
      buildKids P acc ks pagePosition transform perspective parentId =
        acc ++ buildKids P [] ks pagePosition transform perspective parentId := by
  cases ks with
  | nil => intro acc pp t p pid; simp [buildKids]
  | cons k rest =>
    intro acc pp t p pid
    simp only [buildKids]
    rw [build_append P k acc, buildKids_append P rest (acc ++ _),
        buildKids_append P rest (build P [] k pp t p pid)]
    simp
end

theorem buildKids_flatMap {M : Type} (P : Params M) (ks : SCList M) :
    ∀ (pagePosition : Point2D Int) (transform perspective : M)
      (parentId : Option Nat),
      buildKids P [] ks pagePosition transform perspective parentId =
        scFlatMap
          (fun k => build P [] k pagePosition transform perspective parentId)
          ks := by
  cases ks with
  | nil => intro pp t p pid; simp [buildKids, scFlatMap]
  | cons k rest =>
    intro pp t p pid
    simp only [buildKids, scFlatMap]
    rw [buildKids_append P rest, buildKids_flatMap P rest]

theorem point2D_add_def {α : Type} [Add α] (a b : Point2D α) :
    a + b = ⟨a.x + b.x, a.y + b.y⟩ := rfl

theorem point2D_add_comm (a b : Point2D Int) : a + b = b + a := by
  simp [point2D_add_def, Int.add_comm]

/-- C6: the layer-tree builder (`build` inside
`PaintTask::initialize_layers`) is a pre-order recursive walk: at a node
with a `PaintLayer` it emits one `LayerProperties` whose rect origin is
`page_position + bounds.origin + overflow.origin` rounded to the nearest
device pixel, whose size is `overflow.size` rounded likewise, carrying the
right-multiplied composed transform and perspective, and recurses into the
children with the page position reset to zero, the transforms reset to
identity and the parent id set to this layer's id; at a node without a
`PaintLayer` it emits nothing and recurses with the page position advanced
by `bounds.origin` and the (composed) transforms and parent id carried
unchanged. -/
theorem c6_layer_tree_builder {M : Type} (P : Params M)
    (sc : StackingContext M) (pp : Point2D Int) (t p : M)
    (pid : Option Nat) :
    (∀ pl, sc.layer = some pl →
      build P [] sc pp t p pid =
        { id := pl.id
          parent_id := pid
          rect :=
            ⟨⟨(P.toNearestPx (pp + sc.bounds.origin + sc.overflow.origin).x :
                 Int),
              (P.toNearestPx (pp + sc.bounds.origin + sc.overflow.origin).y :
                 Int)⟩,
             ⟨(P.toNearestPx sc.overflow.size.width : Int),
              (P.toNearestPx sc.overflow.size.height : Int)⟩⟩
          background_color := pl.background_color
          scroll_policy := pl.scroll_policy
          transform := P.mmul t sc.transform
          perspective := P.mmul p sc.perspective
          establishes_3d_context := sc.establishes3dContext } ::
        scFlatMap
          (fun k => build P [] k zeroPoint P.mident P.mident (some pl.id))
          sc.children) ∧
    (sc.layer = none →
      build P [] sc pp t p pid =
        scFlatMap
          (fun k => build P [] k (pp + sc.bounds.origin)
            (P.mmul t sc.transform) (P.mmul p sc.perspective) pid)
          sc.children) := by
  cases sc with
  | mk t0 p0 b o e3 layer kids =>
    constructor
    · intro pl hpl
      simp only [StackingContext.layer] at hpl
      subst hpl
      simp only [build, StackingContext.bounds, StackingContext.overflow,
        StackingContext.transform, StackingContext.perspective,
        StackingContext.children, StackingContext.establishes3dContext]
      rw [buildKids_append P kids, buildKids_flatMap P kids]
      simp [zeroPoint]
    · intro hnone
      simp only [StackingContext.layer] at hnone
      subst hnone
      simp only [build, StackingContext.bounds, StackingContext.overflow,
        StackingContext.transform, StackingContext.perspective,
        StackingContext.children]
      rw [buildKids_flatMap P kids]
      simp only [point2D_add_comm b.origin pp]

/-- Witness for C6: the layer case of `c6_layer_tree_builder` evaluated on
the concrete two-node scene `exLayeredScene`. -/
theorem c6_layer_tree_builder_witness :
    exLayeredScene.layer = some ⟨3, exColor, .fixedPosition⟩ ∧
    build unitParams [] exLayeredScene ⟨100, 200⟩ () () none =
      { id := (⟨3, exColor, .fixedPosition⟩ : PaintLayer).id
        parent_id := none
        rect :=
          ⟨⟨(unitParams.toNearestPx
               ((⟨100, 200⟩ : Point2D Int) + exLayeredScene.bounds.origin +
                 exLayeredScene.overflow.origin).x : Int),
            (unitParams.toNearestPx
               ((⟨100, 200⟩ : Point2D Int) + exLayeredScene.bounds.origin +
                 exLayeredScene.overflow.origin).y : Int)⟩,
           ⟨(unitParams.toNearestPx exLayeredScene.overflow.size.width : Int),
            (unitParams.toNearestPx exLayeredScene.overflow.size.height :
               Int)⟩⟩
        background_color := (⟨3, exColor, .fixedPosition⟩ : PaintLayer).background_color
        scroll_policy := (⟨3, exColor, .fixedPosition⟩ : PaintLayer).scroll_policy
        transform := unitParams.mmul () exLayeredScene.transform
        perspective := unitParams.mmul () exLayeredScene.perspective
        establishes_3d_context := exLayeredScene.establishes3dContext } ::
      scFlatMap
        (fun k => build unitParams [] k zeroPoint unitParams.mident
          unitParams.mident (some 3))
        exLayeredScene.children :=
  ⟨rfl,
   (c6_layer_tree_builder unitParams exLayeredScene ⟨100, 200⟩ () () none).1
     ⟨3, exColor, .fixedPosition⟩ rfl⟩

/-! ## GPU mode, permission gating, and the missing-epoch panic -/

/-- C8: when `gpu_painting` is enabled,
`find_or_create_layer_buffer_for_tile` returns `None` for every tile with
the buffer pool untouched, and `WorkerThreadProxy::spawn` spawns exactly
one worker thread regardless of the configured `paint_threads`. -/
theorem c8_gpu_painting {M : Type} (P : Params M) (hasCtx : Bool)
    (bm : BufferMap) (tile : BufferRequest) (scale : Rat)
    (hgpu : P.opts.gpu_painting = true) :
    findOrCreateLayerBufferForTile P hasCtx bm tile scale = .ok (bm, none) ∧
    threadCount P.opts = 1 := by
  constructor
  · simp [findOrCreateLayerBufferForTile, hgpu]
  · simp [threadCount, hgpu]

/-- Witness for C8 on `gpuParams` (which configures eight paint threads). -/
theorem c8_gpu_painting_witness :
    findOrCreateLayerBufferForTile gpuParams true (BufferMap.new 10000000)
      exTile 1 = .ok (BufferMap.new 10000000, none) ∧
    threadCount gpuParams.opts = 1 :=
  c8_gpu_painting gpuParams true (BufferMap.new 10000000) exTile 1 rfl

/-- C10: a `Paint` message received without paint permission is dropped
before any epoch check — the state (loan counter included) is returned
unchanged and no compositor call happens — but the coordinator does send a
`PainterReady` notification to the constellation. -/
theorem c10_paint_without_permission {M : Type} (P : Params M)
    (s : PaintState M) (reqs : List PaintRequest) (fid : Nat)
    (h : s.paint_permission = false) :
    stepMsg P s (.paint reqs fid) = .cont s [.painterReady] := by
  simp [stepMsg, h]

/-- Witness for C10 on a concrete permission-less state. -/
theorem c10_paint_without_permission_witness :
    stepMsg unitParams { exState with paint_permission := false }
      (.paint [exReqGood] 5) =
      .cont { exState with paint_permission := false } [.painterReady] :=
  c10_paint_without_permission unitParams
    { exState with paint_permission := false } [exReqGood] 5 rfl

theorem processRequests_noEpoch {M : Type} (P : Params M)
    (reqs : List PaintRequest) :
    ∀ (s : PaintState M) (replies : List (Nat × List LayerBuffer)),
      s.current_epoch = none →
      processRequests P s replies reqs = .ok (s, replies) := by
  induction reqs with
  | nil => intro s replies _; simp [processRequests]
  | cons r rest ih =>
    intro s replies h
    simp only [processRequests, h]
    simp only [reduceCtorEq, if_false]
    exact ih s replies h

theorem stepPaint_noEpoch_panic {M : Type} (P : Params M)
    (s : PaintState M) (reqs : List PaintRequest) (fid : Nat)
    (hperm : s.paint_permission = true) (hwait : s.waiting_for_exit = false)
    (hep : s.current_epoch = none) :
    stepMsg P s (.paint reqs fid) = .panic := by
  simp only [stepMsg, hperm, hwait, Bool.not_true, Bool.false_eq_true,
    if_false]
  rw [processRequests_noEpoch P reqs s [] hep]
  simp [hep]

/-- C9: with paint permission granted but no `PaintInit` ever received
(`current_epoch = None`), any `Paint` message panics the coordinator at
the `current_epoch.unwrap()` of the reply assembly — even with an empty or
all-stale request list — and this panic is reachable from the initial
state through the public message interface. -/
theorem c9_unwrap_panic_reachable {M : Type} (P : Params M) :
    (∀ (s : PaintState M) (reqs : List PaintRequest) (fid : Nat),
      s.paint_permission = true → s.waiting_for_exit = false →
      s.current_epoch = none → stepMsg P s (.paint reqs fid) = .panic) ∧
    (∀ (hasCtx : Bool) (reqs : List PaintRequest) (fid : Nat),
      runTrace P (initState P hasCtx)
        [.paintPermissionGranted, .paint reqs fid] = (.panicked, [], 0)) := by
  refine ⟨fun s reqs fid => stepPaint_noEpoch_panic P s reqs fid,
          fun hasCtx reqs fid => ?_⟩
  have h1 : stepMsg P (initState P hasCtx) .paintPermissionGranted =
      .cont { initState P hasCtx with paint_permission := true } [] := by
    simp [stepMsg, initState]
  have h2 : stepMsg P { initState P hasCtx with paint_permission := true }
      (.paint reqs fid) = .panic :=
    stepPaint_noEpoch_panic P _ reqs fid rfl rfl rfl
  simp [runTrace, h1, h2, returnedOfMsg]

/-- Witness for C9 at a concrete state and a concrete two-message trace. -/
theorem c9_unwrap_panic_reachable_witness :
    stepMsg unitParams { exState with current_epoch := none }
      (.paint [] 3) = .panic ∧
    runTrace unitParams (initState unitParams true)
      [.paintPermissionGranted, .paint [] 3] = (.panicked, [], 0) :=
  ⟨(c9_unwrap_panic_reachable unitParams).1
     { exState with current_epoch := none } [] 3 rfl rfl rfl,
   (c9_unwrap_panic_reachable unitParams).2 true [] 3⟩

/-! ## Paint pipeline lemmas -/

theorem findOrCreate_ctx_ok {M : Type} (P : Params M) (bm : BufferMap)
    (tile : BufferRequest) (scale : Rat) :
    ∃ bm1 ob, findOrCreateLayerBufferForTile P true bm tile scale =
        .ok (bm1, ob) ∧
      (P.opts.gpu_painting = false → ob.isSome = true) := by
  by_cases hg : P.opts.gpu_painting = true
  · exact ⟨bm, none, by simp [findOrCreateLayerBufferForTile, hg],
      by simp [hg]⟩
  · simp only [Bool.not_eq_true] at hg
    cases hfind : bm.find tile.screen_rect.size with
    | none =>
      refine ⟨bm, some
        { native_surface :=
            { width := tile.screen_rect.size.width
              height := tile.screen_rect.size.height
              wontLeak := true }
          rect := tile.page_rect
          screen_pos := tile.screen_rect
          resolution := scale
          stride := tile.screen_rect.size.width * 4
          painted_with_cpu := true
          content_age := tile.content_age }, ?_, by simp⟩
      simp [findOrCreateLayerBufferForTile, hg, hfind]
    | some pr =>
      obtain ⟨buffer, bm1⟩ := pr
      refine ⟨bm1, some
        { buffer with
          rect := tile.page_rect
          screen_pos := tile.screen_rect
          resolution := scale
          native_surface := { buffer.native_surface with wontLeak := true }
          painted_with_cpu := true
          content_age := tile.content_age }, ?_, by simp⟩
      simp [findOrCreateLayerBufferForTile, hg, hfind]

theorem allocBuffers_ctx_ok {M : Type} (P : Params M)
    (tiles : List BufferRequest) :
    ∀ (bm : BufferMap) (scale : Rat),
      ∃ bm2 pbs, allocBuffers P true bm scale tiles = .ok (bm2, pbs) ∧
        pbs.length = tiles.length ∧
        ∀ pb ∈ pbs, P.opts.gpu_painting = false → pb.2.isSome = true := by
  induction tiles with
  | nil => intro bm scale; exact ⟨bm, [], by simp [allocBuffers], by simp⟩
  | cons tile rest ih =>
    intro bm scale
    obtain ⟨bm1, ob, hfo, hsome⟩ := findOrCreate_ctx_ok P bm tile scale
    obtain ⟨bm2, pbs, hrest, hlen, hall⟩ := ih bm1 scale
    refine ⟨bm2, (tile, ob) :: pbs, ?_, by simp [hlen], ?_⟩
    · simp [allocBuffers, hfo, hrest]
    · intro pb hpb
      rcases List.mem_cons.mp hpb with h | h
      · subst h; exact hsome
      · exact hall pb h

theorem workerPaintTile_ctx_ok {M : Type} (P : Params M) (tid : Nat)
    (tile : BufferRequest) (lb : Option LayerBuffer) (scale : Rat)
    (kind : LayerKind) (h : P.opts.gpu_painting = false → lb.isSome = true) :
    ∃ b, workerPaintTile P true tid tile lb scale kind = .ok b := by
  by_cases hg : P.opts.gpu_painting = true
  · exact ⟨{ native_surface :=
               { width := tile.screen_rect.size.width
                 height := tile.screen_rect.size.height
                 wontLeak := true }
             rect := tile.page_rect
             screen_pos := tile.screen_rect
             resolution := scale
             stride := tile.screen_rect.size.width * 4
             painted_with_cpu := false
             content_age := tile.content_age },
      by simp [workerPaintTile, hg]⟩
  · simp only [Bool.not_eq_true] at hg
    obtain ⟨b, hb⟩ := Option.isSome_iff_exists.mp (h hg)
    exact ⟨b, by simp [workerPaintTile, hg, hb]⟩

theorem collectOks_allOk {β : Type} :
    ∀ ys : List (Except Unit β), (∀ y ∈ ys, ∃ b, y = .ok b) →
      ∃ bs, collectOks ys = .ok bs ∧ bs.length = ys.length := by
  intro ys
  induction ys with
  | nil => intro _; exact ⟨[], by simp [collectOks], by simp⟩
  | cons y rest ih =>
    intro h
    obtain ⟨b, hb⟩ := h y (List.mem_cons_self y rest)
    obtain ⟨bs, hbs, hlen⟩ :=
      ih (fun z hz => h z (List.mem_cons_of_mem y hz))
    subst hb
    exact ⟨b :: bs, by simp [collectOks, hbs], by simp [hlen]⟩

theorem resolvesLayer_update {M : Type} (s : PaintState M) (bm : BufferMap)
    (lid : Nat) :
    resolvesLayer { s with buffer_map := bm } lid = resolvesLayer s lid :=
  rfl

theorem paintOne_skip {M : Type} (P : Params M) (s : PaintState M)
    (replies : List (Nat × List LayerBuffer)) (tiles : List BufferRequest)
    (scale : Rat) (lid : Nat) (kind : LayerKind)
    (h : resolvesLayer s lid = false) :
    paintOne P s replies tiles scale lid kind = .ok (s, replies) := by
  cases hroot : s.root_stacking_context with
  | none => simp [paintOne, hroot]
  | some root =>
    cases hfind : findStackingContextWithLayerId root lid with
    | none => simp [paintOne, hroot, hfind]
    | some sc =>
      exfalso
      simp [resolvesLayer, hroot, hfind] at h

theorem paintOne_resolved_ok {M : Type} (P : Params M) (s : PaintState M)
    (replies : List (Nat × List LayerBuffer)) (tiles : List BufferRequest)
    (scale : Rat) (lid : Nat) (kind : LayerKind)
    (hctx : s.has_graphics_context = true)
    (h : resolvesLayer s lid = true) :
    ∃ bm bufs, paintOne P s replies tiles scale lid kind =
        .ok ({ s with buffer_map := bm }, replies ++ [(lid, bufs)]) ∧
      bufs.length = tiles.length := by
  cases hroot : s.root_stacking_context with
  | none => simp [resolvesLayer, hroot] at h
  | some root =>
    cases hfind : findStackingContextWithLayerId root lid with
    | none => simp [resolvesLayer, hroot, hfind] at h
    | some sc =>
      obtain ⟨bm1, pbs, halloc, hplen, hall⟩ :=
        allocBuffers_ctx_ok P tiles s.buffer_map scale
      have hresults : ∀ y ∈ roundRobinRun s.worker_count
          (fun tid pb => workerPaintTile P true tid pb.1 pb.2 scale kind)
          pbs, ∃ b, y = .ok b := by
        intro y hy
        rw [roundRobinRun_eq] at hy
        obtain ⟨j, pb, hpb, hype⟩ := mem_mapIdxFrom _ pbs 0 y hy
        subst hype
        exact workerPaintTile_ctx_ok P (j % s.worker_count) pb.1 pb.2 scale
          kind (hall pb hpb)
      obtain ⟨bufs, hcoll, hblen⟩ := collectOks_allOk _ hresults
      refine ⟨bm1, bufs, ?_, ?_⟩
      · simp only [paintOne, hroot, hfind, hctx, halloc, hcoll]
      · rw [hblen, roundRobinRun_eq, mapIdxFrom_length, hplen]

theorem paintOne_state {M : Type} (P : Params M) (s : PaintState M)
    (replies : List (Nat × List LayerBuffer)) (tiles : List BufferRequest)
    (scale : Rat) (lid : Nat) (kind : LayerKind) (s1 : PaintState M)
    (r1 : List (Nat × List LayerBuffer))
    (h : paintOne P s replies tiles scale lid kind = .ok (s1, r1)) :
    ∃ bm, s1 = { s with buffer_map := bm } := by
  rw [paintOne] at h
  split at h
  · simp only [Except.ok.injEq, Prod.mk.injEq] at h
    exact ⟨s.buffer_map, by rw [← h.1]⟩
  · split at h
    · simp only [Except.ok.injEq, Prod.mk.injEq] at h
      exact ⟨s.buffer_map, by rw [← h.1]⟩
    · split at h
      · exact absurd h (by simp)
      · dsimp only at h
        split at h
        · exact absurd h (by simp)
        · simp only [Except.ok.injEq, Prod.mk.injEq] at h
          exact ⟨_, h.1.symm⟩

theorem processRequests_skip {M : Type} (P : Params M) (bad : PaintRequest)
    (l2 : List PaintRequest) :
    ∀ (l1 : List PaintRequest) (s : PaintState M)
      (replies : List (Nat × List LayerBuffer)),
      resolvesLayer s bad.layer_id = false →
      processRequests P s replies (l1 ++ bad :: l2) =
        processRequests P s replies (l1 ++ l2) := by
  intro l1
  induction l1 with
  | nil =>
    intro s replies h
    simp only [List.nil_append, processRequests]
    by_cases hcond : s.current_epoch = some bad.epoch
    · rw [if_pos hcond,
        paintOne_skip P s replies bad.buffer_requests bad.scale bad.layer_id
          bad.layer_kind h]
    · rw [if_neg hcond]
  | cons r l1x ih =>
    intro s replies h
    simp only [List.cons_append, processRequests]
    by_cases hcond : s.current_epoch = some r.epoch
    · rw [if_pos hcond, if_pos hcond]
      cases hpo : paintOne P s replies r.buffer_requests r.scale r.layer_id
          r.layer_kind with
      | error e => rfl
      | ok pr =>
        obtain ⟨bm, hs1⟩ := paintOne_state P s replies r.buffer_requests
          r.scale r.layer_id r.layer_kind pr.1 pr.2 (by rw [hpo])
        exact ih pr.1 pr.2 (by rw [hs1]; exact h)
    · rw [if_neg hcond, if_neg hcond]
      exact ih s replies h

/-- C7: a paint request in a batch whose `layer_id` resolves to no
stacking context of the scene (depth-first pre-order search over
`PaintLayer` ids) contributes no reply entry and changes no coordinator
state: the whole `Paint` message behaves exactly as if that request were
absent, and the other requests of the batch proceed normally. -/
theorem c7_missing_layer {M : Type} (P : Params M) (s : PaintState M)
    (l1 l2 : List PaintRequest) (bad : PaintRequest) (fid : Nat)
    (h : resolvesLayer s bad.layer_id = false) :
    stepMsg P s (.paint (l1 ++ bad :: l2) fid) =
      stepMsg P s (.paint (l1 ++ l2) fid) := by
  simp only [stepMsg]
  rw [processRequests_skip P bad l2 l1 s [] h]

/-- Witness for C7: dropping the unresolvable request `exReqMissing` from
a concrete batch leaves the step result unchanged. -/
theorem c7_missing_layer_witness :
    stepMsg unitParams exState (.paint [exReqGood, exReqMissing] 5) =
      stepMsg unitParams exState (.paint [exReqGood] 5) :=
  c7_missing_layer unitParams exState [exReqGood] [] exReqMissing 5
    (by decide)

/-! ## Epoch filter: C1 and C5 -/

theorem processRequests_char {M : Type} (P : Params M) (e : Nat) :
    ∀ (reqs : List PaintRequest) (s : PaintState M)
      (replies : List (Nat × List LayerBuffer)),
      s.has_graphics_context = true → s.current_epoch = some e →
      ∃ bm newReplies,
        processRequests P s replies reqs =
          .ok ({ s with buffer_map := bm }, replies ++ newReplies) ∧
        newReplies.map (fun r => (r.1, r.2.length)) =
          reqs.filterMap (fun r =>
            if r.epoch = e ∧ resolvesLayer s r.layer_id = true then
              some (r.layer_id, r.buffer_requests.length)
            else none) := by
  intro reqs
  induction reqs with
  | nil =>
    intro s replies _ _
    exact ⟨s.buffer_map, [], by simp [processRequests], by simp⟩
  | cons r rest ih =>
    intro s replies hctx hep
    by_cases hre : r.epoch = e
    · have hcond : s.current_epoch = some r.epoch := by rw [hep, hre]
      by_cases hres : resolvesLayer s r.layer_id = true
      · obtain ⟨bm1, bufs, hp, hlen⟩ :=
          paintOne_resolved_ok P s replies r.buffer_requests r.scale
            r.layer_id r.layer_kind hctx hres
        obtain ⟨bm2, newRest, hrest, hmap⟩ :=
          ih { s with buffer_map := bm1 } (replies ++ [(r.layer_id, bufs)])
            hctx hep
        simp only [resolvesLayer_update] at hmap
        refine ⟨bm2, (r.layer_id, bufs) :: newRest, ?_, ?_⟩
        · simp only [processRequests, if_pos hcond, hp]
          rw [hrest]
          simp
        · rw [List.filterMap_cons_some
            (b := (r.layer_id, r.buffer_requests.length))
            (by simp [hre, hres])]
          simp [hmap, hlen]
      · have hskip := paintOne_skip P s replies r.buffer_requests r.scale
          r.layer_id r.layer_kind (Bool.eq_false_iff.mpr hres)
        obtain ⟨bm2, newRest, hrest, hmap⟩ := ih s replies hctx hep
        refine ⟨bm2, newRest, ?_, ?_⟩
        · simp only [processRequests, if_pos hcond, hskip]
          exact hrest
        · rw [List.filterMap_cons_none (by simp [hres])]
          exact hmap
    · have hcond : ¬s.current_epoch = some r.epoch := by
        rw [hep]
        intro hh
        injection hh with hh2
        exact hre hh2.symm
      obtain ⟨bm2, newRest, hrest, hmap⟩ := ih s replies hctx hep
      refine ⟨bm2, newRest, ?_, ?_⟩
      · simp only [processRequests, if_neg hcond]
        exact hrest
      · rw [List.filterMap_cons_none (by simp [hre])]
        exact hmap

/-- Counterexample to C1 as stated: in `exState` the current epoch is 1
and request `exReqMissing` carries epoch 1 with one buffer request, yet
the processed `Paint` message ships zero buffers (its layer id 99 resolves
to no stacking context), not `len(buffer_requests) = 1`. -/
theorem c1_epoch_filter_counterexample :
    exReqMissing.epoch = 1 ∧ exState.current_epoch = some 1 ∧
    exReqMissing.buffer_requests.length = 1 ∧
    shippedOfEvents
      (stepMsg unitParams exState (.paint [exReqMissing] 5)).events = 0 :=
  ⟨rfl, rfl, rfl, by decide⟩

/-- C1 (amended): while paint permission is granted (and no exit drain is
pending, with an epoch published, a graphics context and at least one
worker), a `Paint(requests, frame_id)` message ships one
`assign_painted_buffers` call under the current epoch and the supplied
frame id; requests with a stale epoch contribute no reply entry and are
dropped without error, and each request with the current epoch **whose
layer id resolves in the scene** contributes exactly
`len(buffer_requests)` buffers; the loan counter grows by the total
buffers shipped. -/
theorem c1_epoch_filter_amended {M : Type} (P : Params M)
    (s : PaintState M) (reqs : List PaintRequest) (fid e : Nat)
    (hperm : s.paint_permission = true) (hwait : s.waiting_for_exit = false)
    (hep : s.current_epoch = some e) (hctx : s.has_graphics_context = true)
    (hW : 0 < s.worker_count) :
    ∃ bm replies,
      stepMsg P s (.paint reqs fid) =
        .cont { s with
                buffer_map := bm
                used_buffer_count := s.used_buffer_count +
                  (replies.map (fun r => r.2.length)).sum }
          [.assignPaintedBuffers e replies fid] ∧
      replies.map (fun r => (r.1, r.2.length)) =
        reqs.filterMap (fun r =>
          if r.epoch = e ∧ resolvesLayer s r.layer_id = true then
            some (r.layer_id, r.buffer_requests.length)
          else none) := by
  obtain ⟨bm, newReplies, hproc, hmap⟩ :=
    processRequests_char P e reqs s [] hctx hep
  refine ⟨bm, newReplies, ?_, hmap⟩
  simp only [stepMsg, hperm, hwait, Bool.not_true, Bool.false_eq_true,
    if_false, hproc]
  simp [hep]

/-- Witness for the amended C1 on a concrete three-request batch: one
resolved matching request (two tiles), one stale request, one matching
request with an unresolvable layer id. -/
theorem c1_epoch_filter_amended_witness :
    ∃ bm replies,
      stepMsg unitParams exState
        (.paint [exReqGood, exReqStale, exReqMissing] 7) =
        .cont { exState with
                buffer_map := bm
                used_buffer_count := exState.used_buffer_count +
                  (replies.map (fun r => r.2.length)).sum }
          [.assignPaintedBuffers 1 replies 7] ∧
      replies.map (fun r => (r.1, r.2.length)) =
        ([exReqGood, exReqStale, exReqMissing] : List PaintRequest).filterMap
          (fun r =>
            if r.epoch = 1 ∧ resolvesLayer exState r.layer_id = true then
              some (r.layer_id, r.buffer_requests.length)
            else none) :=
  c1_epoch_filter_amended unitParams exState
    [exReqGood, exReqStale, exReqMissing] 7 1 rfl rfl rfl rfl (by decide)

theorem processRequests_allStale {M : Type} (P : Params M) (e : Nat) :
    ∀ (reqs : List PaintRequest) (s : PaintState M)
      (replies : List (Nat × List LayerBuffer)),
      s.current_epoch = some e → (∀ r ∈ reqs, r.epoch ≠ e) →
      processRequests P s replies reqs = .ok (s, replies) := by
  intro reqs
  induction reqs with
  | nil => intro s replies _ _; simp [processRequests]
  | cons r rest ih =>
    intro s replies hep hall
    have hcond : ¬s.current_epoch = some r.epoch := by
      rw [hep]
      intro hh
      injection hh with hh2
      exact hall r (List.mem_cons_self r rest) hh2.symm
    simp only [processRequests, if_neg hcond]
    exact ih s replies hep (fun q hq => hall q (List.mem_cons_of_mem r hq))

/-- Counterexample to C5 as stated: with current epoch 1, a `Paint`
message whose only request is stale (epoch 0) still invokes
`assign_painted_buffers` — with an empty reply vector — so "the
coordinator sends no reply to the compositor (assign_painted_buffers is
not invoked)" is false; the state (loan counter included) is unchanged. -/
theorem c5_stale_drop_counterexample :
    exReqStale.epoch ≠ 1 ∧ exState.current_epoch = some 1 ∧
    stepMsg unitParams exState (.paint [exReqStale] 5) =
      .cont exState [.assignPaintedBuffers 1 [] 5] :=
  ⟨by decide, rfl, by rfl⟩

/-- C5 (amended): if every request of a `Paint` message carries an epoch
different from the current epoch, the coordinator ships no buffer and
leaves its whole state (loan counter included) unchanged, but it does
invoke `assign_painted_buffers` with an empty reply vector under the
current epoch and the supplied frame id. -/
theorem c5_stale_drop_amended {M : Type} (P : Params M) (s : PaintState M)
    (reqs : List PaintRequest) (fid e : Nat)
    (hperm : s.paint_permission = true) (hwait : s.waiting_for_exit = false)
    (hep : s.current_epoch = some e) (hall : ∀ r ∈ reqs, r.epoch ≠ e) :
    stepMsg P s (.paint reqs fid) =
      .cont s [.assignPaintedBuffers e [] fid] := by
  simp only [stepMsg, hperm, hwait, Bool.not_true, Bool.false_eq_true,
    if_false, processRequests_allStale P e reqs s [] hep hall]
  simp [hep]
  cases s
  simp_all

/-- Witness for the amended C5 on a concrete all-stale batch. -/
theorem c5_stale_drop_amended_witness :
    stepMsg unitParams exState (.paint [exReqStale] 9) =
      .cont exState [.assignPaintedBuffers 1 [] 9] :=
  c5_stale_drop_amended unitParams exState [exReqStale] 9 1 rfl rfl rfl
    (by decide)

/-! ## Loan conservation: C2 -/

theorem processRequests_state {M : Type} (P : Params M) :
    ∀ (reqs : List PaintRequest) (s : PaintState M)
      (replies : List (Nat × List LayerBuffer)) (s1 : PaintState M)
      (r1 : List (Nat × List LayerBuffer)),
      processRequests P s replies reqs = .ok (s1, r1) →
      ∃ bm, s1 = { s with buffer_map := bm } := by
  intro reqs
  induction reqs with
  | nil =>
    intro s replies s1 r1 h
    simp only [processRequests, Except.ok.injEq, Prod.mk.injEq] at h
    exact ⟨s.buffer_map, by rw [← h.1]⟩
  | cons r rest ih =>
    intro s replies s1 r1 h
    simp only [processRequests] at h
    split at h
    · cases hpo : paintOne P s replies r.buffer_requests r.scale r.layer_id
          r.layer_kind with
      | error ee => rw [hpo] at h; simp at h
      | ok pr =>
        obtain ⟨s2, r2⟩ := pr
        rw [hpo] at h
        obtain ⟨bm0, hs0⟩ := paintOne_state P s replies r.buffer_requests
          r.scale r.layer_id r.layer_kind s2 r2 hpo
        obtain ⟨bm1, hs1⟩ := ih s2 r2 s1 r1 h
        exact ⟨bm1, by rw [hs1, hs0]⟩
    · exact ih s replies s1 r1 h

theorem shippedOfEvents_append {M : Type}
    (a b : List (CompositorEvent M)) :
    shippedOfEvents (a ++ b) = shippedOfEvents a + shippedOfEvents b := by
  simp [shippedOfEvents]

theorem publishLayers_shipped {M : Type} (P : Params M) (s : PaintState M)
    (evs : List (CompositorEvent M)) (h : publishLayers P s = some evs) :
    shippedOfEvents evs = 0 := by
  rw [publishLayers] at h
  split at h
  · simp only [Option.some.injEq] at h
    subst h
    rfl
  · split at h
    · simp at h
    · simp only [Option.some.injEq] at h
      subst h
      simp [shippedOfEvents, eventShipped]

theorem stepMsg_loanBalanced {M : Type} (P : Params M) (s : PaintState M)
    (m : CoordMsg M) : loanBalanced s m (stepMsg P s m) := by
  cases m with
  | paintInit e sc =>
    simp only [stepMsg]
    split
    · simp [loanBalanced, returnedOfMsg, shippedOfEvents, eventShipped]
    · split
      · simp [loanBalanced, returnedOfMsg, shippedOfEvents]
      · split
        · simp [loanBalanced]
        · rename_i evs heq
          have hz := publishLayers_shipped P _ evs heq
          simp [loanBalanced, returnedOfMsg, hz]
  | canvasLayer lid =>
    simp [stepMsg, loanBalanced, returnedOfMsg, shippedOfEvents]
  | paint requests fid =>
    simp only [stepMsg]
    split
    · simp [loanBalanced, returnedOfMsg, shippedOfEvents, eventShipped]
    · split
      · simp [loanBalanced, returnedOfMsg, shippedOfEvents]
      · split
        · simp [loanBalanced]
        · rename_i s2 replies heq
          obtain ⟨bm, rfl⟩ :=
            processRequests_state P requests s [] s2 replies heq
          split
          · simp [loanBalanced]
          · simp [loanBalanced, returnedOfMsg, shippedOfEvents, eventShipped]
  | unusedBuffer bufs =>
    simp only [stepMsg]
    split
    · simp [loanBalanced]
    · split
      · simp [loanBalanced]
      · rename_i hlt _
        split
        · cases hch : (afterUnusedBuffer s bufs).exit_response_channel <;>
            simp [loanBalanced, returnedOfMsg, shippedOfEvents,
              eventShipped, afterUnusedBuffer, hch] <;> omega
        · simp [loanBalanced, returnedOfMsg, shippedOfEvents,
            afterUnusedBuffer]
          omega
  | paintPermissionGranted =>
    simp only [stepMsg]
    split
    · split
      · simp [loanBalanced]
      · rename_i evs heq
        have hz := publishLayers_shipped P _ evs heq
        simp [loanBalanced, returnedOfMsg, hz]
    · simp [loanBalanced, returnedOfMsg, shippedOfEvents]
  | paintPermissionRevoked =>
    simp [stepMsg, loanBalanced, returnedOfMsg, shippedOfEvents]
  | collectReports =>
    simp [stepMsg, loanBalanced, returnedOfMsg, shippedOfEvents,
      eventShipped]
  | exitMsg ch et =>
    simp only [stepMsg]
    split
    · simp [loanBalanced, returnedOfMsg, shippedOfEvents, eventShipped]
    · cases ch <;>
        simp [loanBalanced, returnedOfMsg, shippedOfEvents, eventShipped]

theorem stepMsg_conservation {M : Type} (P : Params M) (s : PaintState M)
    (m : CoordMsg M) (s1 : PaintState M) (out : List (CompositorEvent M))
    (h : stepMsg P s m = .cont s1 out ∨ stepMsg P s m = .halt s1 out) :
    s1.used_buffer_count + returnedOfMsg m =
      s.used_buffer_count + shippedOfEvents out := by
  have hb := stepMsg_loanBalanced P s m
  rcases h with h | h <;> rw [h] at hb <;> exact hb

theorem runTrace_conservation {M : Type} (P : Params M) :
    ∀ (msgs : List (CoordMsg M)) (s : PaintState M) (o : RunOutcome M)
      (evts : List (CompositorEvent M)) (ret : Nat),
      runTrace P s msgs = (o, evts, ret) →
      ∀ s1, (o = .running s1 ∨ o = .halted s1) →
      s1.used_buffer_count + ret = s.used_buffer_count +
        shippedOfEvents evts := by
  intro msgs
  induction msgs with
  | nil =>
    intro s o evts ret h s1 ho
    simp only [runTrace, Prod.mk.injEq] at h
    obtain ⟨h1, h2, h3⟩ := h
    subst h1; subst h2; subst h3
    rcases ho with ho | ho
    · injection ho with hs
      subst hs
      simp [shippedOfEvents]
    · injection ho
  | cons mm ms ih =>
    intro s o evts ret h s1 ho
    simp only [runTrace] at h
    cases hstep : stepMsg P s mm with
    | panic =>
      rw [hstep] at h
      simp only [Prod.mk.injEq] at h
      obtain ⟨h1, _, _⟩ := h
      subst h1
      rcases ho with ho | ho <;> injection ho
    | halt s2 out2 =>
      rw [hstep] at h
      simp only [Prod.mk.injEq] at h
      obtain ⟨h1, h2, h3⟩ := h
      subst h1; subst h2; subst h3
      rcases ho with ho | ho
      · injection ho
      · injection ho with hs
        subst hs
        exact stepMsg_conservation P s mm _ _ (Or.inr hstep)
    | cont s2 out2 =>
      rw [hstep] at h
      dsimp only at h
      rcases hr : runTrace P s2 ms with ⟨o2, evts2, ret2⟩
      rw [hr] at h
      simp only [Prod.mk.injEq] at h
      obtain ⟨h1, h2, h3⟩ := h
      subst h1; subst h2; subst h3
      have hstep2 := stepMsg_conservation P s mm s2 out2 (Or.inl hstep)
      have hih := ih s2 o2 evts2 ret2 hr s1 ho
      rw [shippedOfEvents_append]
      omega

/-- C2: starting from a state with a zero loan counter, at every point of
any processed message sequence (every prefix whose run is still in the
loop, and the final state of a halting run) the loan counter equals the
total number of buffers shipped in `assign_painted_buffers` events minus
the total number of buffers returned via processed `UnusedBuffer`
messages, and it is never negative.  Traces that would drive the counter
negative underflow the `usize` subtraction and are panics, not reachable
states. -/
theorem c2_loan_conservation {M : Type} (P : Params M)
    (msgs : List (CoordMsg M)) (s0 : PaintState M)
    (h0 : s0.used_buffer_count = 0) (o : RunOutcome M)
    (evts : List (CompositorEvent M)) (ret : Nat) (s1 : PaintState M)
    (hrun : runTrace P s0 msgs = (o, evts, ret))
    (ho : o = .running s1 ∨ o = .halted s1) :
    (s1.used_buffer_count : Int) =
      (shippedOfEvents evts : Int) - (ret : Int) ∧
    0 ≤ (s1.used_buffer_count : Int) := by
  have hc := runTrace_conservation P msgs s0 o evts ret hrun s1 ho
  rw [h0] at hc
  omega

/-- Witness for C2 on the concrete one-message trace `[CollectReports]`
from `exState` (loan counter 0): zero shipped minus zero returned. -/
theorem c2_loan_conservation_witness :
    exState.used_buffer_count = 0 ∧
    ((exState.used_buffer_count : Int) =
      (shippedOfEvents
        [CompositorEvent.memoryReport (M := Unit)
          exState.buffer_map.memBytes] : Int) - (0 : Int) ∧
     0 ≤ (exState.used_buffer_count : Int)) :=
  ⟨rfl,
   c2_loan_conservation unitParams [.collectReports] exState rfl
     (.running exState)
     [CompositorEvent.memoryReport exState.buffer_map.memBytes] 0 exState
     (by rfl) (Or.inl rfl)⟩

/-! ## Exit and drain: C3 -/

/-- Counterexample to C3 as stated: in the drain-mode state
`exDrainState` (loans outstanding, waiting flag set, current epoch 1), a
`PaintInit` is not ignored — lines 240-241 run before the drain check, so
it records the new epoch 9 and the new scene, changing the coordinator
state — and the change is observable at the public interface: a following
`PaintPermissionGranted`, whose arm has no drain check, publishes the
scene recorded mid-drain under epoch 9. -/
theorem c3_exit_drain_counterexample :
    exDrainState.waiting_for_exit = true ∧
    exDrainState.current_epoch = some 1 ∧
    stepMsg unitParams exDrainState (.paintInit 9 exLayeredScene) =
      .cont { exDrainState with
              current_epoch := some 9
              root_stacking_context := some exLayeredScene } [] ∧
    (runTrace unitParams exDrainState
      [.paintInit 9 exLayeredScene, .paintPermissionGranted]).2.1 =
      [.layersPublished
        (build unitParams [] exLayeredScene zeroPoint unitParams.mident
          unitParams.mident none) 9] :=
  ⟨rfl, rfl, rfl, rfl⟩

/-- C3 (amended): for every `Exit(ack_channel, mode)`: with
`mode = Complete` or a zero loan counter the coordinator acknowledges on
the channel (when one was supplied) and breaks out of its loop
immediately; otherwise (`PipelineOnly` with loans outstanding) it enters
drain mode, where a subsequent `Paint` paints nothing and ships nothing
(a complete no-op while paint permission is granted; with permission
revoked it only sends `PainterReady`, as outside drain), a subsequent
`PaintInit` still records the new epoch and scene but publishes no layers
and paints nothing (likewise sending `PainterReady` when permission is
revoked), and a subsequent `UnusedBuffer` acknowledges and halts the loop
exactly when it brings the loan counter to zero. -/
theorem c3_exit_drain {M : Type} (P : Params M) :
    (∀ (s : PaintState M) (ch : Bool) (mode : PipelineExitType),
      (mode = .complete ∨ s.used_buffer_count = 0) →
      stepMsg P s (.exitMsg ch mode) =
        .halt s ([.unregisterReporter, .notifyPaintTaskExiting] ++
          if ch then [.exitAck] else [])) ∧
    (∀ (s : PaintState M) (ch : Bool),
      s.used_buffer_count ≠ 0 →
      stepMsg P s (.exitMsg ch .pipelineOnly) =
        .cont { s with waiting_for_exit := true
                       exit_response_channel := ch }
          [.unregisterReporter, .notifyPaintTaskExiting]) ∧
    (∀ (s : PaintState M) (reqs : List PaintRequest) (fid : Nat),
      s.waiting_for_exit = true → s.paint_permission = true →
      stepMsg P s (.paint reqs fid) = .cont s []) ∧
    (∀ (s : PaintState M) (reqs : List PaintRequest) (fid : Nat),
      s.waiting_for_exit = true → s.paint_permission = false →
      stepMsg P s (.paint reqs fid) = .cont s [.painterReady]) ∧
    (∀ (s : PaintState M) (e : Nat) (sc : StackingContext M),
      s.waiting_for_exit = true → s.paint_permission = true →
      stepMsg P s (.paintInit e sc) =
        .cont { s with current_epoch := some e
                       root_stacking_context := some sc } []) ∧
    (∀ (s : PaintState M) (e : Nat) (sc : StackingContext M),
      s.waiting_for_exit = true → s.paint_permission = false →
      stepMsg P s (.paintInit e sc) =
        .cont { s with current_epoch := some e
                       root_stacking_context := some sc }
          [.painterReady]) ∧
    (∀ (s : PaintState M) (bufs : List LayerBuffer),
      s.waiting_for_exit = true → s.has_graphics_context = true →
      bufs.length ≤ s.used_buffer_count →
      (s.used_buffer_count - bufs.length = 0 →
        stepMsg P s (.unusedBuffer bufs) =
          .halt (afterUnusedBuffer s bufs)
            (if s.exit_response_channel then [.exitAck] else [])) ∧
      (s.used_buffer_count - bufs.length ≠ 0 →
        stepMsg P s (.unusedBuffer bufs) =
          .cont (afterUnusedBuffer s bufs) [])) := by
  refine ⟨?_, ?_, ?_, ?_, ?_, ?_, ?_⟩
  · intro s ch mode hmode
    rcases hmode with rfl | h0
    · simp [stepMsg]
    · cases mode <;> simp [stepMsg, h0]
  · intro s ch h
    simp [stepMsg, h]
  · intro s reqs fid hwait hperm
    simp [stepMsg, hwait, hperm]
  · intro s reqs fid _hwait hperm
    simp [stepMsg, hperm]
  · intro s e sc hwait hperm
    simp [stepMsg, hwait, hperm]
  · intro s e sc _hwait hperm
    simp [stepMsg, hperm]
  · intro s bufs hwait hctx hlen
    refine ⟨fun hz => ?_, fun hnz => ?_⟩
    · simp only [stepMsg]
      rw [if_neg (by omega), if_neg (by simp [hctx])]
      simp [afterUnusedBuffer, hwait, hz]
    · simp only [stepMsg]
      rw [if_neg (by omega), if_neg (by simp [hctx])]
      simp [afterUnusedBuffer, hwait, hnz]

/-- Witness for the amended C3: immediate exit on `Complete`, drain entry
on `PipelineOnly` with loans, a drained `Paint` no-op with permission and
its `PainterReady` variant without, a drained permission-less `PaintInit`
recording epoch and scene, and the ack-and-halt on the `UnusedBuffer`
that zeroes the counter, all on concrete states. -/
theorem c3_exit_drain_witness :
    stepMsg unitParams exState (.exitMsg true .complete) =
      .halt exState ([.unregisterReporter, .notifyPaintTaskExiting] ++
        if true then [.exitAck] else []) ∧
    stepMsg unitParams { exState with used_buffer_count := 2 }
      (.exitMsg true .pipelineOnly) =
      .cont { { exState with used_buffer_count := 2 } with
              waiting_for_exit := true
              exit_response_channel := true }
        [.unregisterReporter, .notifyPaintTaskExiting] ∧
    stepMsg unitParams exDrainState (.paint [exReqGood] 5) =
      .cont exDrainState [] ∧
    stepMsg unitParams { exDrainState with paint_permission := false }
      (.paint [exReqGood] 5) =
      .cont { exDrainState with paint_permission := false }
        [.painterReady] ∧
    stepMsg unitParams { exDrainState with paint_permission := false }
      (.paintInit 4 exScene) =
      .cont { { exDrainState with paint_permission := false } with
              current_epoch := some 4
              root_stacking_context := some exScene }
        [.painterReady] ∧
    stepMsg unitParams exDrainState (.unusedBuffer [exBuf, exBuf]) =
      .halt (afterUnusedBuffer exDrainState [exBuf, exBuf])
        (if exDrainState.exit_response_channel then [.exitAck] else []) :=
  ⟨(c3_exit_drain unitParams).1 exState true .complete (Or.inl rfl),
   (c3_exit_drain unitParams).2.1 { exState with used_buffer_count := 2 }
     true (by decide),
   (c3_exit_drain unitParams).2.2.1 exDrainState [exReqGood] 5 rfl rfl,
   (c3_exit_drain unitParams).2.2.2.1
     { exDrainState with paint_permission := false } [exReqGood] 5 rfl rfl,
   (c3_exit_drain unitParams).2.2.2.2.2.1
     { exDrainState with paint_permission := false } 4 exScene rfl rfl,
   ((c3_exit_drain unitParams).2.2.2.2.2.2 exDrainState [exBuf, exBuf] rfl
     rfl (by decide)).1 (by decide)⟩

end ServoPaint
